import Mathlib

/-!
# Verification of the rs-matter transport engine and Interaction Model dispatcher

This development shallowly embeds the exchange engine of
`src/rs-matter/src/transport/core.rs` (purge, register, `process_rx`,
`pull_tx`) and — where the repository provides only tests for it — a
spec-modelled Interaction Model dispatcher (Read/Write/Invoke with ACL and
data-version filtering), and proves properties of both.
-/

namespace Transport

/-- Secure-channel protocol id (spec §6: Secure Channel opcodes live on their
own protocol id; the numeric value is the Matter-standard 0). -/
def protoSecureChannel : Nat := 0

/-- Opcode of a standalone MRP ack on the secure channel protocol. -/
def opMRPStandAloneAck : Nat := 0x10

/-- MRP ack-owed delay in milliseconds (spec §4.4: "typical ~100 ms idle timer"). -/
def ackTimeoutMs : Nat := 100

/-- MRP base retransmission interval in milliseconds (spec §6: implementation
parameter). -/
def retransIntervalMs : Nat := 300

/-- Role of one side of an exchange (`transport/exchange.rs`, used by
`core.rs`): fixed at creation, complementary to the first packet's
initiator flag. -/
inductive Role where
  | initiator
  | responder
deriving DecidableEq, Repr

/-- `Role::complementary(is_initiator)`: the local role complementary to the
peer packet's initiator flag. -/
def Role.complementary (isInitiator : Bool) : Role :=
  if isInitiator then .responder else .initiator

/-- Modelled from the spec (§4.4, §3 "ReliableMessage"): the per-exchange MRP
state. `mrp.rs` is not among the provided sources; we keep the fields the
engine consults: the pending ack counter with its ack-ready deadline, and the
retransmit deadline recorded on send. -/
structure Mrp where
  ackCtr : Option Nat
  ackDeadline : Nat
  retransDeadline : Option Nat
deriving DecidableEq, Repr

/-- A fresh MRP state (`ReliableMessage::new()`). -/
def Mrp.new : Mrp := ⟨none, 0, none⟩

/-- Modelled from the spec (§4.4): `is_ack_ready(now)` is true when an owed
ack's deadline has elapsed. -/
def Mrp.isAckReady (m : Mrp) (now : Nat) : Bool :=
  m.ackCtr.isSome && decide (m.ackDeadline ≤ now)

/-- The decoded proto-header fields of an inbound packet that `process_rx`
consults (spec §3 "Packet"). -/
structure Packet where
  exchId : Nat
  isInitiator : Bool
  isAck : Bool
  protoId : Nat
  protoOpcode : Nat
  reliable : Bool
  ctr : Nat
deriving DecidableEq, Repr

/-- A packet is a standalone MRP ack when it carries the `MRPStandAloneAck`
opcode on the secure-channel protocol (`core.rs` lines 508–509). -/
def Packet.isStandaloneAck (p : Packet) : Bool :=
  p.protoId == protoSecureChannel && p.protoOpcode == opMRPStandAloneAck

/-- Modelled from the spec (§4.4): `mrp.recv` records the inbound counter and
schedules an ack if the message is reliable (`mrp.rs` is not among the
provided sources). -/
def Mrp.recv (m : Mrp) (p : Packet) (now : Nat) : Mrp :=
  if p.reliable then { m with ackCtr := some p.ctr, ackDeadline := now + ackTimeoutMs }
  else m

/-- Modelled from the spec (§4.4): `mrp.pre_send` embeds (and thereby clears)
the pending ack counter and records the retransmit deadline. -/
def Mrp.preSend (m : Mrp) (now : Nat) : Mrp :=
  { m with ackCtr := none, retransDeadline := some (now + retransIntervalMs) }

/-- `ExchangeState` (spec §3; `transport/exchange.rs` as used by `core.rs`).
Notification references are modelled as emitted signals; the raw `tx`/`rx`
packet pointers are modelled by the abstract payload held for transmission. -/
inductive XState where
  | active
  | acknowledge
  | exchangeSend (tx : Nat)
  | exchangeRecv (tx : Nat) (txAcknowledged : Bool)
  | complete (tx : Nat)
  | completeAcknowledge
  | construction
  | closed
deriving DecidableEq, Repr

/-- Per-exchange record `ExchangeCtx { id, role, mrp, state }` (spec §3).
The `ExchangeId` is abstracted to a `Nat` uniquely naming the conversation. -/
structure ExchangeCtx where
  id : Nat
  role : Role
  mrp : Mrp
  state : XState
deriving DecidableEq, Repr

/-- Whether an exchange is `Closed` (and hence subject to purging). -/
def ExchangeCtx.isClosed (c : ExchangeCtx) : Bool :=
  match c.state with
  | .closed => true
  | _ => false

/-- `heapless::Vec::swap_remove(i)`: remove the element at index `i` by
replacing it with the last element (which perturbs order). -/
def swapRemove {α : Type} (l : List α) (i : Nat) : List α :=
  match l.getLast? with
  | none => l
  | some last => (l.dropLast).set i last

/-- Fuel-bounded body of `purge` (`core.rs` lines 663–677): repeatedly find
the first `Closed` exchange and `swap_remove` it. Each removal shrinks the
table, so `l.length` fuel suffices. -/
def purgeAux : Nat → List ExchangeCtx → List ExchangeCtx
  | 0, l => l
  | n + 1, l =>
    match l.findIdx? (fun c => c.isClosed) with
    | none => l
    | some i => purgeAux n (swapRemove l i)

/-- `purge` (`core.rs` lines 663–677): remove all `Closed` exchanges via
repeated `swap_remove` of the first `Closed` entry. -/
def purge (l : List ExchangeCtx) : List ExchangeCtx :=
  purgeAux l.length l

/-- Engine-level error codes surfaced by `process_rx` (spec §7). -/
inductive ErrCode where
  | duplicate
  | invalid
  | noExchange
  | noSpace
  | noSession
deriving DecidableEq, Repr

/-- Outcome of the session layer's `post_recv`/`recv` on a packet (external
collaborator, spec §4.3): success, a `Duplicate` replay, or another error. -/
inductive SessionOutcome where
  | ok
  | duplicate
  | fail (e : ErrCode)
deriving DecidableEq, Repr

/-- Notifications signalled during packet processing. -/
inductive Signal where
  | send
  | completion
  | rxNotify
deriving DecidableEq, Repr

/-- Result of `process_rx`: a fresh exchange constructor handed off for
construction, a silently-handled packet, a surfaced error, or the `todo!()`
branches of `core.rs` (which panic). -/
inductive RxResult where
  | newExchange (id : Nat)
  | done
  | err (e : ErrCode)
  | panic
deriving DecidableEq, Repr

/-- The engine state `process_rx`/`pull_tx` operate on: the exchange table
(a `heapless::Vec` of capacity `MAX_EXCHANGES`). -/
structure EngineState where
  exchanges : List ExchangeCtx
  maxExchanges : Nat
deriving DecidableEq, Repr

/-- Full output of one `process_rx` call: its result, the exchange table
afterwards, and the notifications signalled. -/
structure RxOut where
  result : RxResult
  exchanges : List ExchangeCtx
  signals : List Signal
deriving DecidableEq, Repr

/-- `register` (`core.rs` lines 735–769): look up the exchange by id; on a
role mismatch fail with `NoExchange`; if absent and `create_new`, push a
fresh `Active` exchange (capacity permitting), else fail. Returns the table,
the index of the exchange, and whether it was newly created. -/
def register (l : List ExchangeCtx) (maxExchanges : Nat) (id : Nat) (role : Role)
    (createNew : Bool) : Except ErrCode (List ExchangeCtx × Nat × Bool) :=
  match l.findIdx? (fun c => c.id == id) with
  | some i =>
    match l.get? i with
    | some c => if c.role = role then .ok (l, i, false) else .error .noExchange
    | none => .error .noExchange
  | none =>
    if createNew then
      if l.length < maxExchanges then
        .ok (l ++ [⟨id, role, Mrp.new, .active⟩], l.length, true)
      else
        .error .noSpace
    else
      .error .noExchange

/-- Update the element at index `i` in place (the Rust code mutates the
`ExchangeCtx` it obtained by index). -/
def updateAt {α : Type} (l : List α) (i : Nat) (f : α → α) : List α :=
  match l.get? i with
  | some c => l.set i (f c)
  | none => l

/-- `process_rx` (`core.rs` lines 448–536): purge, session receive (with
`Duplicate` handled by a send-notification nudge), register/lookup by
exchange id, `mrp.recv`, pure-ack handling, then new-exchange handoff /
standalone-ack silence / message delivery. The `todo!()` branches of the
source are modelled by the `panic` result. -/
def process_rx (st : EngineState) (now : Nat) (pkt : Packet) (sess : SessionOutcome) :
    RxOut :=
  let ex0 := purge st.exchanges
  match sess with
  | .duplicate => ⟨.done, ex0, [.send]⟩
  | .fail e => ⟨.err e, ex0, []⟩
  | .ok =>
    match register ex0 st.maxExchanges pkt.exchId (Role.complementary pkt.isInitiator)
        pkt.isInitiator with
    | .error e => ⟨.err e, ex0, []⟩
    | .ok (ex1, i, isNew) =>
      let ex2 := updateAt ex1 i (fun c => { c with mrp := c.mrp.recv pkt now })
      if pkt.isAck && isNew then ⟨.err .invalid, ex2, []⟩
      else
        let ackRes : Option (List ExchangeCtx × List Signal) :=
          if pkt.isAck then
            match ex2.get? i with
            | some c =>
              match c.state with
              | .exchangeRecv tx _ =>
                some (ex2.set i { c with state := .exchangeRecv tx true }, [])
              | .completeAcknowledge =>
                some (ex2.set i { c with state := .closed }, [.completion])
              | _ => none
            | none => none
          else some (ex2, [])
        match ackRes with
        | none => ⟨.panic, ex2, []⟩
        | some (ex3, sigs) =>
          if isNew then ⟨.newExchange pkt.exchId, ex3, sigs⟩
          else if pkt.isStandaloneAck then ⟨.done, ex3, sigs⟩
          else
            match ex3.get? i with
            | some c =>
              match c.state with
              | .exchangeRecv _ _ =>
                ⟨.done, ex3.set i { c with state := .active }, sigs ++ [.rxNotify]⟩
              | _ => ⟨.panic, ex3, sigs⟩
            | none => ⟨.panic, ex3, sigs⟩

/-- A packet produced by `pull_tx`: either a bare MRP ack for an exchange, or
the exchange's pending TX payload. -/
inductive TxMsg where
  | ack (exchId : Nat)
  | msg (exchId : Nat) (tx : Nat)
deriving DecidableEq, Repr

/-- The selection predicate of `pull_tx` (`core.rs` lines 581–592): state is
`Acknowledge`, `ExchangeSend` or `Complete` — the `ExchangeRecv` /
`CompleteAcknowledge` retransmission arms are commented out in the source —
or `mrp.is_ack_ready(now)`. -/
def sendablePred (now : Nat) (c : ExchangeCtx) : Bool :=
  (match c.state with
   | .acknowledge => true
   | .exchangeSend _ => true
   | .complete _ => true
   | _ => false) || c.mrp.isAckReady now

/-- Output of one `pull_tx` call: the produced packet, if any, and the
exchange table afterwards. -/
structure TxOut where
  produced : Option TxMsg
  exchanges : List ExchangeCtx
deriving DecidableEq, Repr

/-- `pull_tx` (`core.rs` lines 576–661): purge, then find the first exchange
satisfying `sendablePred`; emit a bare ack (`Acknowledge` or ack-ready
fallback) or load the pending TX (`ExchangeSend` → `ExchangeRecv` with
`tx_acknowledged = false`, `Complete` → `CompleteAcknowledge`), applying
`mrp.pre_send` to the chosen exchange. -/
def pull_tx (st : EngineState) (now : Nat) : TxOut :=
  let l := purge st.exchanges
  match l.findIdx? (sendablePred now) with
  | none => ⟨none, l⟩
  | some i =>
    match l.get? i with
    | none => ⟨none, l⟩
    | some c =>
      match c.state with
      | .acknowledge =>
        ⟨some (.ack c.id), l.set i { c with state := .active, mrp := c.mrp.preSend now }⟩
      | .exchangeSend tx =>
        ⟨some (.msg c.id tx),
          l.set i { c with state := .exchangeRecv tx false, mrp := c.mrp.preSend now }⟩
      | .complete tx =>
        ⟨some (.msg c.id tx),
          l.set i { c with state := .completeAcknowledge, mrp := c.mrp.preSend now }⟩
      | _ =>
        ⟨some (.ack c.id), l.set i { c with mrp := c.mrp.preSend now }⟩

end Transport

namespace IM

/-!
The Interaction Model dispatcher, ACL manager and data-model tree are covered
by the repository only through their tests
(`src/rs-matter/tests/data_model/acl_and_dataver.rs`,
`src/matter/tests/data_model/commands.rs`); the dispatcher sources themselves
are not provided. The definitions below are therefore modelled from the spec
(§3, §4.8, §4.9), with the semantics the tests pin down where the spec is
silent (an ACL entry with no subjects or no targets matches any subject or
target, as exercised by `test_write_data_ver` and `write_with_runtime_acl_add`).
-/

/-- Access privileges, ordered View < Operate < Manage < Admin (spec §4.8). -/
inductive Privilege where
  | view
  | operate
  | manage
  | admin
deriving DecidableEq, Repr

/-- Numeric level realising the privilege ordering. -/
def Privilege.level : Privilege → Nat
  | .view => 0
  | .operate => 1
  | .manage => 2
  | .admin => 3

/-- ACL authentication modes (spec §3 "AclEntry"). -/
inductive AuthMode where
  | case
  | pase
  | group
deriving DecidableEq, Repr

/-- A subject of an ACL entry: a node id, or a CASE-authenticated tag
`(id, version)` (spec §3, glossary "NOC CAT"). -/
inductive Subject where
  | node (id : Nat)
  | cat (id : Nat) (version : Nat)
deriving DecidableEq, Repr

/-- A target of an ACL entry; unset fields match anything (spec §3).
Device types are not modelled (no claim exercises them). -/
structure Target where
  endpoint : Option Nat
  cluster : Option Nat
deriving DecidableEq, Repr

/-- Modelled from the spec (§3 "AclEntry"): one access-control entry. -/
structure AclEntry where
  fabIdx : Nat
  privilege : Privilege
  authMode : AuthMode
  subjects : List Subject
  targets : List Target
deriving DecidableEq, Repr

/-- The accessor on whose behalf a request is evaluated (spec §4.8). -/
structure Accessor where
  fabIdx : Nat
  nodeId : Nat
  catIds : List (Nat × Nat)
  authMode : AuthMode
deriving DecidableEq, Repr

/-- Modelled from the spec (§4.8 (c)): the accessor's node id is among the
entry's subjects, or some accessor CAT dominates an entry CAT (same id,
accessor version ≥ entry version). An entry with no subjects matches any
accessor (as the tests' subject-less entries require). -/
def subjectMatches (acc : Accessor) (e : AclEntry) : Bool :=
  e.subjects.isEmpty ||
    e.subjects.any fun s =>
      match s with
      | .node n => n == acc.nodeId
      | .cat id ver => acc.catIds.any fun p => p.1 == id && ver ≤ p.2

/-- Modelled from the spec (§4.8 (d)): some target of the entry matches the
request; missing fields are wildcards, and an entry with no targets matches
any target (the tests' "universal" entries carry no targets). -/
def targetMatches (e : AclEntry) (ep cl : Nat) : Bool :=
  e.targets.isEmpty ||
    e.targets.any fun t =>
      (match t.endpoint with | none => true | some x => x == ep) &&
      (match t.cluster with | none => true | some x => x == cl)

/-- Modelled from the spec (§4.8): `allow` is true iff some entry matches on
fabric, auth mode, subject and target, with sufficient privilege; default
deny. -/
def allow (acl : List AclEntry) (acc : Accessor) (ep cl : Nat) (need : Privilege) : Bool :=
  acl.any fun e =>
    e.fabIdx == acc.fabIdx &&
    e.authMode == acc.authMode &&
    subjectMatches acc e &&
    targetMatches e ep cl &&
    decide (need.level ≤ e.privilege.level)

/-- Modelled from the spec (§3 "Data Model tree"): an attribute with its
value and the privileges required to read and write it. Values are abstracted
to `Nat`. -/
structure Attr where
  id : Nat
  value : Nat
  readPriv : Privilege
  writePriv : Privilege
deriving DecidableEq, Repr

/-- Modelled from the spec (§3): a cluster instance with its data version,
attributes and commands. -/
structure Cluster where
  id : Nat
  dataVer : Nat
  attrs : List Attr
  cmds : List Nat
deriving DecidableEq, Repr

/-- Modelled from the spec (§3): an endpoint hosting cluster instances. -/
structure Endpoint where
  id : Nat
  clusters : List Cluster
deriving DecidableEq, Repr

/-- The data-model tree: endpoints in enumeration order. -/
abbrev Tree := List Endpoint

/-- `GenericPath = (endpoint?, cluster?, leaf?)`; `none` denotes wildcard
(spec §3 "Paths"). -/
structure GPath where
  endpoint : Option Nat
  cluster : Option Nat
  leaf : Option Nat
deriving DecidableEq, Repr

/-- A concrete (wildcard-free) path. -/
def GPath.concrete (ep cl leaf : Nat) : GPath := ⟨some ep, some cl, some leaf⟩

/-- Whether a path has no wildcard field. -/
def GPath.isConcrete (p : GPath) : Bool :=
  p.endpoint.isSome && p.cluster.isSome && p.leaf.isSome

/-- IM status codes relevant to the claims (spec §6). -/
inductive Status where
  | success
  | unsupportedAccess
  | unsupportedEndpoint
  | unsupportedCluster
  | unsupportedAttribute
  | unsupportedCommand
  | dataVersionMismatch
deriving DecidableEq, Repr

/-- Cluster id of the access-control cluster (Matter-standard 0x001F). -/
def aclClusterID : Nat := 0x001F

/-- Attribute id of the ACL attribute within the access-control cluster. -/
def aclAttrID : Nat := 0

/-- The state the IM dispatcher acts on: the data-model tree and the access
control list. The ACL is both the permission set consulted by `allow` and the
content of the ACL attribute. -/
structure ImState where
  tree : Tree
  acl : List AclEntry
deriving DecidableEq, Repr

/-- Look up an endpoint by id. -/
def findEndpoint (t : Tree) (ep : Nat) : Option Endpoint :=
  t.find? fun e => e.id == ep

/-- Look up a cluster instance by endpoint and cluster id. -/
def findCluster (t : Tree) (ep cl : Nat) : Option Cluster :=
  (findEndpoint t ep).bind fun e => e.clusters.find? fun c => c.id == cl

/-- Look up an attribute by concrete path. -/
def findAttr (t : Tree) (ep cl att : Nat) : Option Attr :=
  (findCluster t ep cl).bind fun c => c.attrs.find? fun a => a.id == att

/-- Apply `f` to the cluster instance at `(ep, cl)`, leaving the rest of the
tree unchanged. -/
def updateCluster (t : Tree) (ep cl : Nat) (f : Cluster → Cluster) : Tree :=
  t.map fun e =>
    if e.id == ep then
      { e with clusters := e.clusters.map fun c => if c.id == cl then f c else c }
    else e

/-- A value carried by a write: a plain (numeric) attribute value, or an ACL
entry destined for the ACL attribute. -/
inductive WVal where
  | num (n : Nat)
  | aclE (e : AclEntry)
deriving DecidableEq, Repr

/-- One `AttrData` element of a Write request: optional data version, path,
payload (spec §4.9 "Write"). -/
structure WReq where
  dataVer : Option Nat
  path : GPath
  val : WVal
deriving DecidableEq, Repr

/-- One `AttrStatus` element of a Write response. -/
structure AttrStatusR where
  path : GPath
  status : Status
deriving DecidableEq, Repr

/-- Modelled from the spec (§4.9): apply a write to a cluster instance —
set the addressed attribute's value (for a numeric payload) and increment the
cluster's data version. -/
def applyWrite (c : Cluster) (att : Nat) (v : WVal) : Cluster :=
  { c with
    dataVer := c.dataVer + 1,
    attrs := c.attrs.map fun a =>
      if a.id == att then
        { a with value := match v with | .num n => n | .aclE _ => a.value }
      else a }

/-- Modelled from the spec (§4.8, §4.9): apply a write at the state level.
A write to the ACL attribute of the access-control cluster installs the
carried entry into the ACL *synchronously*, so subsequent operations in the
same batch observe it. -/
def applyWriteState (st : ImState) (ep cl att : Nat) (v : WVal) : ImState :=
  { tree := updateCluster st.tree ep cl fun c => applyWrite c att v,
    acl :=
      if cl == aclClusterID && att == aclAttrID then
        match v with
        | .aclE e => st.acl ++ [e]
        | .num _ => st.acl
      else st.acl }

/-- All concrete `(endpoint, cluster, attribute)` triples of the tree that
match each non-wildcard field of the path (spec §4.9 "Wildcard expansion"),
in endpoint enumeration order. -/
def expandAttrPath (t : Tree) (p : GPath) : List (Nat × Nat × Nat) :=
  t.flatMap fun e =>
    if match p.endpoint with | none => true | some x => x == e.id then
      e.clusters.flatMap fun c =>
        if match p.cluster with | none => true | some x => x == c.id then
          c.attrs.filterMap fun a =>
            if match p.leaf with | none => true | some x => x == a.id then
              some (e.id, c.id, a.id)
            else none
        else []
    else []

/-- Modelled from the spec (§4.9 "Write", concrete path): existence errors
map to the corresponding `Unsupported…` status; ACL denial to
`UnsupportedAccess`; a supplied, mismatched data version to
`DataVersionMismatch`; otherwise the write is applied, the cluster's data
version incremented and `Success` emitted. -/
def writeConcrete (st : ImState) (acc : Accessor) (dv : Option Nat) (ep cl att : Nat)
    (v : WVal) : ImState × List AttrStatusR :=
  let p := GPath.concrete ep cl att
  match findEndpoint st.tree ep with
  | none => (st, [⟨p, .unsupportedEndpoint⟩])
  | some e =>
    match e.clusters.find? (fun c => c.id == cl) with
    | none => (st, [⟨p, .unsupportedCluster⟩])
    | some c =>
      match c.attrs.find? (fun a => a.id == att) with
      | none => (st, [⟨p, .unsupportedAttribute⟩])
      | some a =>
        if !allow st.acl acc ep cl a.writePriv then
          (st, [⟨p, .unsupportedAccess⟩])
        else
          match dv with
          | some d =>
            if d == c.dataVer then (applyWriteState st ep cl att v, [⟨p, .success⟩])
            else (st, [⟨p, .dataVersionMismatch⟩])
          | none => (applyWriteState st ep cl att v, [⟨p, .success⟩])

/-- Modelled from the spec (§4.9 "Write", wildcard path): expand, then
silently skip ACL-denied and data-version-mismatched resolutions, applying
the rest in order with one `Success` status each. Lookups use the current
(threaded) state, so earlier writes in the expansion are visible. -/
def writeWildcard (st : ImState) (acc : Accessor) (dv : Option Nat) (p : GPath)
    (v : WVal) : ImState × List AttrStatusR :=
  (expandAttrPath st.tree p).foldl
    (fun out trip =>
      let (st, acc') := out
      let (ep, cl, att) := trip
      match findCluster st.tree ep cl with
      | none => (st, acc')
      | some c =>
        match c.attrs.find? (fun a => a.id == att) with
        | none => (st, acc')
        | some a =>
          if !allow st.acl acc ep cl a.writePriv then (st, acc')
          else
            match dv with
            | some d =>
              if d == c.dataVer then
                (applyWriteState st ep cl att v,
                  acc' ++ [⟨GPath.concrete ep cl att, .success⟩])
              else (st, acc')
            | none =>
              (applyWriteState st ep cl att v,
                acc' ++ [⟨GPath.concrete ep cl att, .success⟩]))
    (st, [])

/-- Modelled from the spec (§4.9 "Write"): dispatch one `AttrData` by the
shape of its path. -/
def writeOne (st : ImState) (acc : Accessor) (w : WReq) : ImState × List AttrStatusR :=
  match w.path.endpoint, w.path.cluster, w.path.leaf with
  | some ep, some cl, some att => writeConcrete st acc w.dataVer ep cl att w.val
  | _, _, _ => writeWildcard st acc w.dataVer w.path w.val

/-- Modelled from the spec (§4.9, §5 "Ordering guarantees"): the writes of a
single Write request are processed in listed order, threading the state, so
an ACL write takes effect for the writes after it. -/
def writeReqs (st : ImState) (acc : Accessor) (ws : List WReq) :
    ImState × List AttrStatusR :=
  ws.foldl
    (fun out w =>
      let (st, acc') := out
      let (st', s) := writeOne st acc w
      (st', acc' ++ s))
    (st, [])

/-- A `DataVersionFilter`: a concrete cluster path plus the data version the
client already holds (spec §4.9 "Read"). -/
structure DVFilter where
  endpoint : Nat
  cluster : Nat
  dataVer : Nat
deriving DecidableEq, Repr

/-- Whether some provided filter matches the cluster at `(ep, cl)` holding
data version `dv`. -/
def filterMatches (fs : List DVFilter) (ep cl dv : Nat) : Bool :=
  fs.any fun f => f.endpoint == ep && f.cluster == cl && f.dataVer == dv

/-- One element of a Read response: attribute data with the cluster's data
version, or a status for a concrete path. -/
inductive AttrResp where
  | data (path : GPath) (value : Nat) (dataVer : Nat)
  | status (path : GPath) (s : Status)
deriving DecidableEq, Repr

/-- Modelled from the spec (§4.9 "Read"): a concrete path answers with an
existence or access status, is silently dropped when a provided filter
matches the cluster's current data version, and otherwise yields the value
with the data version; a wildcard path expands, silently dropping denied and
filtered resolutions. -/
def readOne (st : ImState) (acc : Accessor) (fs : List DVFilter) (p : GPath) :
    List AttrResp :=
  match p.endpoint, p.cluster, p.leaf with
  | some ep, some cl, some att =>
    match findEndpoint st.tree ep with
    | none => [.status p .unsupportedEndpoint]
    | some e =>
      match e.clusters.find? (fun c => c.id == cl) with
      | none => [.status p .unsupportedCluster]
      | some c =>
        match c.attrs.find? (fun a => a.id == att) with
        | none => [.status p .unsupportedAttribute]
        | some a =>
          if !allow st.acl acc ep cl a.readPriv then [.status p .unsupportedAccess]
          else if filterMatches fs ep cl c.dataVer then []
          else [.data p a.value c.dataVer]
  | _, _, _ =>
    (expandAttrPath st.tree p).filterMap fun trip =>
      let (ep, cl, att) := trip
      match findCluster st.tree ep cl with
      | none => none
      | some c =>
        match c.attrs.find? (fun a => a.id == att) with
        | none => none
        | some a =>
          if !allow st.acl acc ep cl a.readPriv then none
          else if filterMatches fs ep cl c.dataVer then none
          else some (.data (GPath.concrete ep cl att) a.value c.dataVer)

/-- Modelled from the spec (§4.9 "Read"): responses follow request order. -/
def readReqs (st : ImState) (acc : Accessor) (fs : List DVFilter) (ps : List GPath) :
    List AttrResp :=
  ps.flatMap fun p => readOne st acc fs p

/-- One `CmdData` element of an Invoke request. -/
structure CmdReq where
  path : GPath
  data : Nat
deriving DecidableEq, Repr

/-- One element of an Invoke response: a command response with its own path
and payload, or a `CmdStatus`. -/
inductive InvResp where
  | cmd (path : GPath) (data : Nat)
  | status (path : GPath) (s : Status)
deriving DecidableEq, Repr

/-- Privilege required to invoke a command (implementation parameter; the
claims never exercise invoke-side ACL denial). -/
def invokePriv : Privilege := .operate

/-- Cluster id of the test echo cluster. -/
def echoClusterID : Nat := 0xABCD

/-- Command ids of the echo cluster's request and response. -/
def echoReqID : Nat := 0

/-- Command id of the echo response. -/
def echoRespID : Nat := 1

/-- Modelled from the spec (§8 S1/S3): the command handler; the echo cluster
answers `EchoReq(data)` with `EchoResp(data * 2)` on endpoint 0 and
`EchoResp(data * 3)` elsewhere; any other supported command answers
`CmdStatus(Success)`. -/
def invokeHandler (ep cl cmd data : Nat) : List InvResp :=
  if cl == echoClusterID && cmd == echoReqID then
    [.cmd (GPath.concrete ep echoClusterID echoRespID)
      (data * (if ep == 0 then 2 else 3))]
  else
    [.status (GPath.concrete ep cl cmd) .success]

/-- Modelled from the spec (§4.9 "Invoke", concrete path): unsupported
endpoint / cluster / command answer with the matching status; ACL denial with
`UnsupportedAccess`; otherwise the command handler runs. -/
def invokeConcrete (st : ImState) (acc : Accessor) (ep cl cmd data : Nat) :
    List InvResp :=
  let p := GPath.concrete ep cl cmd
  match findEndpoint st.tree ep with
  | none => [.status p .unsupportedEndpoint]
  | some e =>
    match e.clusters.find? (fun c => c.id == cl) with
    | none => [.status p .unsupportedCluster]
    | some c =>
      if !(c.cmds.contains cmd) then [.status p .unsupportedCommand]
      else if !allow st.acl acc ep cl invokePriv then [.status p .unsupportedAccess]
      else invokeHandler ep cl cmd data

/-- Modelled from the spec (§4.9 "Invoke", wildcard endpoint, and §9 note on
`test_invoke_cmds_unsupported_fields`): expand across the endpoints that host
the named cluster *and* support the named command, silently dropping the
rest (an empty expansion produces no response at all); ACL-denied
resolutions are also silently dropped. -/
def invokeWildcard (st : ImState) (acc : Accessor) (cl cmd data : Nat) : List InvResp :=
  st.tree.flatMap fun e =>
    match e.clusters.find? (fun c => c.id == cl) with
    | none => []
    | some c =>
      if !(c.cmds.contains cmd) then []
      else if !allow st.acl acc e.id cl invokePriv then []
      else invokeHandler e.id cl cmd data

/-- Modelled from the spec (§4.9 "Invoke"): dispatch one `CmdData` by the
shape of its path (the claims only exercise wildcard endpoints). -/
def invokeOne (st : ImState) (acc : Accessor) (r : CmdReq) : List InvResp :=
  match r.path.endpoint, r.path.cluster, r.path.leaf with
  | some ep, some cl, some cmd => invokeConcrete st acc ep cl cmd r.data
  | none, some cl, some cmd => invokeWildcard st acc cl cmd r.data
  | _, _, _ => []

/-- Modelled from the spec (§4.9): responses follow request order. -/
def invokeReqs (st : ImState) (acc : Accessor) (rs : List CmdReq) : List InvResp :=
  rs.flatMap fun r => invokeOne st acc r

/-! ## Concrete test fixtures (from the tests' `ImEngine`/`im_engine` setup) -/

/-- Attribute id of the echo cluster's `Att1`. -/
def att1ID : Nat := 0x10

/-- Attribute id of the echo cluster's writable `AttWrite`. -/
def attWriteID : Nat := 0x11

/-- Default value of `AttWrite` (`ATTR_WRITE_DEFAULT_VALUE`). -/
def attWriteDefault : Nat := 0xCAFE

/-- The peer node id the test engine authenticates as (`IM_ENGINE_PEER_ID`). -/
def peerNodeID : Nat := 445566

/-- The echo cluster instance with the given data version and `AttWrite`
value: `Att1` reads as 0x1234, `AttWrite` requires Manage to write. -/
def echoCluster (dv wv : Nat) : Cluster :=
  { id := echoClusterID, dataVer := dv,
    attrs := [
      { id := att1ID, value := 0x1234, readPriv := .view, writePriv := .admin },
      { id := attWriteID, value := wv, readPriv := .view, writePriv := .manage }],
    cmds := [echoReqID, echoRespID] }

/-- The access-control cluster instance: its ACL attribute requires Admin. -/
def aclCluster (dv : Nat) : Cluster :=
  { id := aclClusterID, dataVer := dv,
    attrs := [{ id := aclAttrID, value := 0, readPriv := .admin, writePriv := .admin }],
    cmds := [] }

/-- The test data-model tree: endpoint 0 hosts the access-control and echo
clusters, endpoint 1 hosts the echo cluster (data versions and `AttWrite`
values as given). -/
def testTree (d0 w0 d1 w1 dacl : Nat) : Tree :=
  [⟨0, [aclCluster dacl, echoCluster d0 w0]⟩, ⟨1, [echoCluster d1 w1]⟩]

/-- The accessor of the test engine: fabric 1, CASE-authenticated peer. -/
def testAcc : Accessor := ⟨1, peerNodeID, [], .case⟩

/-- An ACL entry granting the peer Admin on everything (no targets). -/
def adminAclAll : AclEntry := ⟨1, .admin, .case, [.node peerNodeID], []⟩

/-- An ACL entry granting the peer Admin on the access-control cluster of
endpoint 0 only (`basic_acl` of `write_with_runtime_acl_add`). -/
def basicAcl : AclEntry :=
  ⟨1, .admin, .case, [.node peerNodeID], [⟨some 0, some aclClusterID⟩]⟩

/-- A subject-less, target-less Admin entry (`test_write_data_ver`). -/
def adminAclAny : AclEntry := ⟨1, .admin, .case, [], []⟩

end IM

namespace Transport

/-- Setting a valid index is a permutation of consing the new element onto
the removal of that index. -/
theorem set_perm_cons_eraseIdx {α : Type} :
    ∀ (ys : List α) (i : Nat) (a : α), i < ys.length →
      List.Perm (ys.set i a) (a :: ys.eraseIdx i) := by
  intro ys
  induction ys with
  | nil => intro i a h; simp at h
  | cons y t ih =>
    intro i a h
    cases i with
    | zero => simp [List.set, List.eraseIdx]
    | succ i =>
      have ht : i < t.length := by simpa using h
      exact ((ih i a ht).cons y).trans (List.Perm.swap a y _)

/-- Removing the appended last element by its index is the identity on the
front. -/
theorem eraseIdx_append_sing {α : Type} (a : α) :
    ∀ ys : List α, (ys ++ [a]).eraseIdx ys.length = ys := by
  intro ys
  induction ys with
  | nil => rfl
  | cons y t ih => simpa [List.eraseIdx] using ih

/-- `swapRemove` is a permutation of `eraseIdx` at any in-range index. -/
theorem swapRemove_perm_eraseIdx :
    ∀ (l : List ExchangeCtx) (i : Nat), i < l.length →
      List.Perm (swapRemove l i) (l.eraseIdx i) := by
  intro l i hi
  match hl : l.getLast? with
  | none =>
    rw [List.getLast?_eq_none_iff] at hl
    subst hl
    simp at hi
  | some a =>
    rw [List.getLast?_eq_some_iff] at hl
    obtain ⟨ys, rfl⟩ := hl
    rw [show swapRemove (ys ++ [a]) i = (ys ++ [a]).dropLast.set i a from by
      rw [swapRemove, List.getLast?_eq_some_iff.mpr ⟨ys, rfl⟩]]
    rw [List.dropLast_concat]
    rcases Nat.lt_or_ge i ys.length with hlt | hge
    · refine ((set_perm_cons_eraseIdx ys i a hlt).trans ?_)
      rw [List.eraseIdx_append_of_lt_length hlt [a]]
      exact (List.perm_append_comm : List.Perm ([a] ++ ys.eraseIdx i) (ys.eraseIdx i ++ [a]))
    · have hle : i = ys.length := by
        have : i < ys.length + 1 := by simpa using hi
        omega
      subst hle
      rw [List.set_eq_of_length_le (Nat.le_refl _), eraseIdx_append_sing]

/-- `swapRemove` shrinks a nonempty list by one. -/
theorem length_swapRemove (l : List ExchangeCtx) (i : Nat) (h : l ≠ []) :
    (swapRemove l i).length = l.length - 1 := by
  match hl : l.getLast? with
  | none => rw [List.getLast?_eq_none_iff] at hl; exact absurd hl h
  | some a => rw [swapRemove, hl]; simp

/-- Erasing an element on which the filter predicate fails does not change
the filtered list. -/
theorem filter_eraseIdx_of_false {α : Type} (p : α → Bool) :
    ∀ (ys : List α) (i : Nat) (h : i < ys.length), p (ys.get ⟨i, h⟩) = false →
      (ys.eraseIdx i).filter p = ys.filter p := by
  intro ys
  induction ys with
  | nil => intro i h; simp at h
  | cons y t ih =>
    intro i h hp
    cases i with
    | zero =>
      simp only [List.get] at hp
      simp [List.eraseIdx, List.filter, hp]
    | succ i =>
      have ht : i < t.length := by simpa using h
      simp only [List.get] at hp
      simp only [List.eraseIdx, List.filter_cons]
      rw [ih i ht hp]

/-- The purge loop computes (a permutation of) the table with all `Closed`
exchanges filtered out. -/
theorem purgeAux_perm :
    ∀ (n : Nat) (l : List ExchangeCtx), l.length ≤ n →
      List.Perm (purgeAux n l) (l.filter (fun c => !c.isClosed)) := by
  intro n
  induction n with
  | zero =>
    intro l hl
    have : l = [] := List.length_eq_zero.mp (Nat.le_zero.mp hl)
    subst this
    simp [purgeAux]
  | succ n ih =>
    intro l hl
    rw [purgeAux]
    match hf : l.findIdx? (fun c => c.isClosed) with
    | none =>
      rw [hf]
      rw [List.findIdx?_eq_none_iff] at hf
      rw [List.filter_eq_self.mpr (fun a ha => by simp [hf a ha])]
    | some i =>
      rw [hf]
      rw [List.findIdx?_eq_some_iff_getElem] at hf
      obtain ⟨hlt, hpi, -⟩ := hf
      have hne : l ≠ [] := by
        intro h; subst h; simp at hlt
      have hlen : (swapRemove l i).length ≤ n := by
        rw [length_swapRemove l i hne]
        omega
      refine (ih _ hlen).trans ?_
      refine ((swapRemove_perm_eraseIdx l i hlt).filter _).trans ?_
      rw [filter_eraseIdx_of_false _ l i hlt (by simp only [List.get_eq_getElem]; simp [hpi])]

/-- `purge` permutes the table into its non-`Closed` entries. -/
theorem purge_perm_filter (l : List ExchangeCtx) :
    List.Perm (purge l) (l.filter (fun c => !c.isClosed)) :=
  purgeAux_perm l.length l (Nat.le_refl _)

/-- A table with no `Closed` exchange is left untouched by `purge`. -/
theorem purge_eq_self_of_no_closed (l : List ExchangeCtx)
    (h : ∀ c ∈ l, c.isClosed = false) : purge l = l := by
  rw [purge]
  cases hl : l.length with
  | zero => rfl
  | succ n =>
    rw [purgeAux, List.findIdx?_eq_none_iff.mpr h]

end Transport

namespace Transport

/-- C5 (failing input): an exchange whose last transmitted message is still
unacknowledged (state `ExchangeRecv` with `tx_acknowledged = false`, resp.
`CompleteAcknowledge`) and whose MRP retransmit deadline (50) has long
elapsed at `now = 1000`, with no ack owed, is NOT picked up by `pull_tx`:
no packet is produced and the table is unchanged — the retransmission arms
of the selection predicate are commented out in the source. -/
theorem pull_tx_skips_due_retransmission :
    pull_tx ⟨[⟨1, .responder, ⟨none, 0, some 50⟩, .exchangeRecv 7 false⟩], 4⟩ 1000 =
      ⟨none, [⟨1, .responder, ⟨none, 0, some 50⟩, .exchangeRecv 7 false⟩]⟩ ∧
    pull_tx ⟨[⟨2, .responder, ⟨none, 0, some 50⟩, .completeAcknowledge⟩], 4⟩ 1000 =
      ⟨none, [⟨2, .responder, ⟨none, 0, some 50⟩, .completeAcknowledge⟩]⟩ := by
  decide

/-- C6 (counterexample): on a `Duplicate` packet the exchange table is NOT
left unchanged — the purge that opens `process_rx` removes a `Closed`
exchange from the table, so the claim's "the exchange table … unchanged"
fails at this input (the duplicate is still dropped with only a
send-notification signal). -/
theorem process_rx_duplicate_purge_counterexample :
    process_rx ⟨[⟨1, .responder, Mrp.new, .closed⟩], 4⟩ 0
        ⟨1, true, false, 1, 0, true, 33⟩ .duplicate =
      ⟨.done, [], [.send]⟩ ∧
    ([] : List ExchangeCtx) ≠ [⟨1, .responder, Mrp.new, .closed⟩] := by
  decide

/-- C9 (code evaluated at the failing inputs): a pure ack for an existing
exchange in a state other than `ExchangeRecv`/`CompleteAcknowledge` (here
`Active`), and a message-bearing packet for an existing exchange not in
`ExchangeRecv`, both drive `process_rx` into the `todo!()` branches of the
source, which panic instead of returning an error. -/
theorem process_rx_violation_reaches_panic :
    (process_rx ⟨[⟨5, .responder, Mrp.new, .active⟩], 4⟩ 0
        ⟨5, true, true, protoSecureChannel, opMRPStandAloneAck, false, 9⟩ .ok).result =
      .panic ∧
    (process_rx ⟨[⟨5, .responder, Mrp.new, .active⟩], 4⟩ 0
        ⟨5, true, false, 1, 2, true, 9⟩ .ok).result = .panic := by
  decide

/-- C10: a packet with both the initiator and ack flags set and an exchange
id (5) matching no existing exchange makes `process_rx` register a new
exchange and then fail with `Invalid`; the newly created exchange (state
`Active`, with `mrp.recv` applied) remains registered in the table after the
error — no rollback happens. -/
theorem process_rx_ack_on_new_exchange_no_rollback :
    process_rx ⟨[], 4⟩ 0 ⟨5, true, true, 1, 2, true, 9⟩ .ok =
      ⟨.err .invalid, [⟨5, .responder, ⟨some 9, 100, none⟩, .active⟩], []⟩ := by
  decide

/-- C8 (counterexample): with the table `[Closed(1), ExchangeSend(2),
ExchangeSend(3)]`, the purge's `swap_remove` moves exchange 3 in front of
exchange 2, so `pull_tx` transmits exchange 3's payload even though
exchange 2 was inserted earlier and is equally selectable — the claimed
insertion-order scan would have produced `msg 2 5`. -/
theorem pull_tx_insertion_order_counterexample :
    (pull_tx ⟨[⟨1, .responder, Mrp.new, .closed⟩,
        ⟨2, .responder, Mrp.new, .exchangeSend 5⟩,
        ⟨3, .responder, Mrp.new, .exchangeSend 6⟩], 4⟩ 0).produced =
      some (.msg 3 6) ∧
    [⟨1, .responder, Mrp.new, XState.closed⟩,
        ⟨2, .responder, Mrp.new, .exchangeSend 5⟩,
        ⟨3, .responder, Mrp.new, .exchangeSend 6⟩].find? (sendablePred 0) =
      some ⟨2, .responder, Mrp.new, .exchangeSend 5⟩ ∧
    some (TxMsg.msg 3 6) ≠ some (.msg 2 5) := by
  decide

end Transport

namespace IM

/-- C1: with an initial ACL granting the peer access only to the
access-control cluster, one Write request batching (echo-cluster write,
ACL write installing a universal-admin entry, echo-cluster write again)
yields the statuses `UnsupportedAccess`, `Success`, `Success`, and after the
batch the echo cluster's `AttWrite` attribute holds the payload (10) of the
third write: the ACL write took effect synchronously within the batch. -/
theorem write_with_runtime_acl_add :
    (writeReqs ⟨testTree 0 attWriteDefault 0 attWriteDefault 0, [basicAcl]⟩ testAcc
        [⟨none, GPath.concrete 0 echoClusterID attWriteID, .num 10⟩,
         ⟨none, GPath.concrete 0 aclClusterID aclAttrID, .aclE adminAclAll⟩,
         ⟨none, GPath.concrete 0 echoClusterID attWriteID, .num 10⟩]).2 =
      [⟨GPath.concrete 0 echoClusterID attWriteID, .unsupportedAccess⟩,
       ⟨GPath.concrete 0 aclClusterID aclAttrID, .success⟩,
       ⟨GPath.concrete 0 echoClusterID attWriteID, .success⟩] ∧
    (findAttr (writeReqs ⟨testTree 0 attWriteDefault 0 attWriteDefault 0, [basicAcl]⟩
        testAcc
        [⟨none, GPath.concrete 0 echoClusterID attWriteID, .num 10⟩,
         ⟨none, GPath.concrete 0 aclClusterID aclAttrID, .aclE adminAclAll⟩,
         ⟨none, GPath.concrete 0 echoClusterID attWriteID, .num 10⟩]).1.tree
        0 echoClusterID attWriteID).map (fun a => a.value) = some 10 := by
  decide

/-- C3 (counterexample): a wildcard read with a `DataVersionFilter` matching
endpoint 0's echo cluster (data version 7) yields NO `AttrData` for the
endpoint-0 resolution even though the ACL allows it (second conjunct), so
"each allowed one yields AttrData" fails as stated; only endpoint 1 reports. -/
theorem wc_read_filter_drops_allowed_counterexample :
    readReqs ⟨testTree 7 1 8 2 0, [adminAclAny]⟩ testAcc [⟨0, echoClusterID, 7⟩]
        [⟨none, some echoClusterID, some att1ID⟩] =
      [.data (GPath.concrete 1 echoClusterID att1ID) 0x1234 8] ∧
    allow [adminAclAny] testAcc 0 echoClusterID .view = true := by
  decide

end IM

namespace Transport

/-- C6 (amended): on a packet whose session receive reports `Duplicate`,
`process_rx` signals exactly the send notification, returns no exchange
constructor and no error, and leaves the exchange table unchanged except for
the purge of `Closed` exchanges that opens every `process_rx` call (the
post-table is a permutation of the non-`Closed` entries); in particular a
table with no `Closed` exchange is completely unchanged. -/
theorem process_rx_duplicate_only_send_signal :
    (∀ (st : EngineState) (now : Nat) (pkt : Packet),
      process_rx st now pkt .duplicate = ⟨.done, purge st.exchanges, [.send]⟩) ∧
    (∀ l : List ExchangeCtx,
      List.Perm (purge l) (l.filter (fun c => !c.isClosed))) ∧
    (∀ (st : EngineState) (now : Nat) (pkt : Packet),
      (∀ c ∈ st.exchanges, c.isClosed = false) →
      process_rx st now pkt .duplicate = ⟨.done, st.exchanges, [.send]⟩) := by
  refine ⟨fun st now pkt => rfl, purge_perm_filter, fun st now pkt h => ?_⟩
  simp only [process_rx, purge_eq_self_of_no_closed st.exchanges h]

/-- Witness for C6's amended theorem at a concrete non-`Closed` table. -/
theorem process_rx_duplicate_only_send_signal_witness :
    process_rx ⟨[⟨1, .responder, Mrp.new, .active⟩], 4⟩ 0
        ⟨1, true, false, 1, 0, true, 33⟩ .duplicate =
      ⟨.done, [⟨1, .responder, Mrp.new, .active⟩], [.send]⟩ :=
  process_rx_duplicate_only_send_signal.2.2 ⟨[⟨1, .responder, Mrp.new, .active⟩], 4⟩ 0
    ⟨1, true, false, 1, 0, true, 33⟩ (by decide)

end Transport

namespace Transport

/-- C7: pure-ack handling of `process_rx`. (i) A pure ack that would create a
new exchange (no table entry with its exchange id, initiator flag set, space
available) fails with `Invalid`; (ii) on an existing exchange in
`ExchangeRecv` it sets `tx_acknowledged = true` (and, being standalone, does
nothing else); (iii) on an existing exchange in `CompleteAcknowledge` it
signals the completion notification and transitions the exchange to
`Closed`. -/
theorem process_rx_pure_ack :
    (∀ (st : EngineState) (now : Nat) (pkt : Packet),
      pkt.isAck = true → pkt.isInitiator = true →
      (purge st.exchanges).findIdx? (fun c => c.id == pkt.exchId) = none →
      (purge st.exchanges).length < st.maxExchanges →
      (process_rx st now pkt .ok).result = .err .invalid) ∧
    (∀ (st : EngineState) (now : Nat) (pkt : Packet) (i : Nat) (c : ExchangeCtx)
        (tx : Nat) (b : Bool),
      pkt.isAck = true → pkt.isStandaloneAck = true →
      (purge st.exchanges).findIdx? (fun c0 => c0.id == pkt.exchId) = some i →
      (purge st.exchanges).get? i = some c →
      c.role = Role.complementary pkt.isInitiator →
      c.state = .exchangeRecv tx b →
      process_rx st now pkt .ok =
        ⟨.done,
         (purge st.exchanges).set i
           ⟨c.id, c.role, c.mrp.recv pkt now, .exchangeRecv tx true⟩,
         []⟩) ∧
    (∀ (st : EngineState) (now : Nat) (pkt : Packet) (i : Nat) (c : ExchangeCtx),
      pkt.isAck = true → pkt.isStandaloneAck = true →
      (purge st.exchanges).findIdx? (fun c0 => c0.id == pkt.exchId) = some i →
      (purge st.exchanges).get? i = some c →
      c.role = Role.complementary pkt.isInitiator →
      c.state = .completeAcknowledge →
      process_rx st now pkt .ok =
        ⟨.done,
         (purge st.exchanges).set i ⟨c.id, c.role, c.mrp.recv pkt now, .closed⟩,
         [.completion]⟩) := by
  refine ⟨?_, ?_, ?_⟩
  · intro st now pkt hAck hInit hIdx hLen
    simp only [process_rx, register, hIdx, hInit, if_true, hLen, if_pos, hAck,
      Bool.true_and, if_true]
  · intro st now pkt i c tx b hAck hSA hIdx hGet hRole hState
    have hi : i < (purge st.exchanges).length := by
      have := hGet
      rw [List.get?_eq_getElem?] at this
      exact (List.getElem?_eq_some.mp this).1
    simp only [process_rx, register, hIdx, hGet, hRole, if_true, updateAt, hAck,
      Bool.and_false, hSA, hState]
    simp [List.get?_eq_getElem?, List.getElem?_set_self hi, List.set_set]
  · intro st now pkt i c hAck hSA hIdx hGet hRole hState
    have hi : i < (purge st.exchanges).length := by
      have := hGet
      rw [List.get?_eq_getElem?] at this
      exact (List.getElem?_eq_some.mp this).1
    simp only [process_rx, register, hIdx, hGet, hRole, if_true, updateAt, hAck,
      Bool.and_false, hSA, hState]
    simp [List.get?_eq_getElem?, List.getElem?_set_self hi, List.set_set]

end Transport

namespace Transport

/-- Witness for C7 at concrete inputs: a pure ack that would create exchange
5 fails with `Invalid`; a pure ack for exchange 5 in `ExchangeRecv` sets
`tx_acknowledged`; a pure ack for exchange 6 in `CompleteAcknowledge`
signals completion and closes. -/
theorem process_rx_pure_ack_witness :
    (process_rx ⟨[], 4⟩ 0 ⟨5, true, true, 0, 0x10, false, 9⟩ .ok).result =
      .err .invalid ∧
    process_rx ⟨[⟨5, .responder, Mrp.new, .exchangeRecv 3 false⟩], 4⟩ 0
        ⟨5, true, true, 0, 0x10, false, 9⟩ .ok =
      ⟨.done,
       (purge [⟨5, .responder, Mrp.new, .exchangeRecv 3 false⟩]).set 0
         ⟨5, .responder, Mrp.new.recv ⟨5, true, true, 0, 0x10, false, 9⟩ 0,
          .exchangeRecv 3 true⟩,
       []⟩ ∧
    process_rx ⟨[⟨6, .responder, Mrp.new, .completeAcknowledge⟩], 4⟩ 0
        ⟨6, true, true, 0, 0x10, false, 9⟩ .ok =
      ⟨.done,
       (purge [⟨6, .responder, Mrp.new, .completeAcknowledge⟩]).set 0
         ⟨6, .responder, Mrp.new.recv ⟨6, true, true, 0, 0x10, false, 9⟩ 0, .closed⟩,
       [.completion]⟩ :=
  ⟨process_rx_pure_ack.1 ⟨[], 4⟩ 0 ⟨5, true, true, 0, 0x10, false, 9⟩ rfl rfl
      (by decide) (by decide),
   process_rx_pure_ack.2.1 ⟨[⟨5, .responder, Mrp.new, .exchangeRecv 3 false⟩], 4⟩ 0
      ⟨5, true, true, 0, 0x10, false, 9⟩ 0 ⟨5, .responder, Mrp.new, .exchangeRecv 3 false⟩
      3 false rfl (by decide) (by decide) (by decide) (by decide) rfl,
   process_rx_pure_ack.2.2 ⟨[⟨6, .responder, Mrp.new, .completeAcknowledge⟩], 4⟩ 0
      ⟨6, true, true, 0, 0x10, false, 9⟩ 0 ⟨6, .responder, Mrp.new, .completeAcknowledge⟩
      rfl (by decide) (by decide) (by decide) (by decide) rfl⟩

end Transport

namespace Transport

/-- C8 (amended): `pull_tx` scans the purged table in its (swap-remove
perturbed) table order: it produces nothing when no exchange satisfies the
selection predicate, and otherwise acts on the first exchange — in
post-purge order — whose state is `Acknowledge`, `ExchangeSend` or
`Complete` or whose `mrp.is_ack_ready(now)` holds, every earlier exchange
failing the predicate; the produced packet is that exchange's bare ack or
pending TX. No exchange in another state without a ready ack is ever
selected. -/
theorem pull_tx_selects_first_ready :
    (∀ (st : EngineState) (now : Nat),
      (purge st.exchanges).findIdx? (sendablePred now) = none →
      pull_tx st now = ⟨none, purge st.exchanges⟩) ∧
    (∀ (st : EngineState) (now : Nat) (i : Nat) (c : ExchangeCtx),
      (purge st.exchanges).findIdx? (sendablePred now) = some i →
      (purge st.exchanges).get? i = some c →
      sendablePred now c = true ∧
      (∀ (j : Nat) (hj : j < (purge st.exchanges).length), j < i →
        sendablePred now ((purge st.exchanges).get ⟨j, hj⟩) = false) ∧
      (pull_tx st now).produced =
        some (match c.state with
          | .acknowledge => TxMsg.ack c.id
          | .exchangeSend tx => TxMsg.msg c.id tx
          | .complete tx => TxMsg.msg c.id tx
          | _ => TxMsg.ack c.id)) := by
  constructor
  · intro st now h
    simp only [pull_tx, h]
  · intro st now i c h1 h2
    have h1' := h1
    rw [List.findIdx?_eq_some_iff_getElem] at h1'
    obtain ⟨hlt, hp, hmin⟩ := h1'
    have h2' := h2
    rw [List.get?_eq_getElem?] at h2'
    have he : (purge st.exchanges).get ⟨i, hlt⟩ = c := by
      have := List.getElem?_eq_some.mp h2'
      simpa [List.get_eq_getElem] using this.2
    refine ⟨?_, ?_, ?_⟩
    · rw [← he]
      simpa [List.get_eq_getElem] using hp
    · intro j hj hji
      have := hmin j hji
      simpa [List.get_eq_getElem] using this
    · simp only [pull_tx, h1, h2]
      cases c.state <;> rfl

/-- Witness for C8's amended theorem: a one-exchange table in
`ExchangeSend` is selected at index 0 and its payload transmitted. -/
theorem pull_tx_selects_first_ready_witness :
    sendablePred 0 ⟨2, .responder, Mrp.new, .exchangeSend 5⟩ = true ∧
    (∀ (j : Nat)
        (hj : j < (purge [⟨2, .responder, Mrp.new, .exchangeSend 5⟩]).length), j < 0 →
      sendablePred 0
        ((purge [⟨2, .responder, Mrp.new, .exchangeSend 5⟩]).get ⟨j, hj⟩) = false) ∧
    (pull_tx ⟨[⟨2, .responder, Mrp.new, .exchangeSend 5⟩], 4⟩ 0).produced =
      some (.msg 2 5) :=
  pull_tx_selects_first_ready.2 ⟨[⟨2, .responder, Mrp.new, .exchangeSend 5⟩], 4⟩ 0 0
    ⟨2, .responder, Mrp.new, .exchangeSend 5⟩ (by decide) (by decide)

end Transport

namespace IM

/-- Rewriting the value of exactly the addressed attribute commutes with
looking that attribute up. -/
theorem find?_attrs_set_value (att n : Nat) :
    ∀ l : List Attr,
      (l.map fun a0 => if a0.id == att then { a0 with value := n } else a0).find?
          (fun a0 => a0.id == att) =
        (l.find? (fun a0 => a0.id == att)).map fun a0 => { a0 with value := n } := by
  intro l
  induction l with
  | nil => rfl
  | cons a t ih =>
    by_cases h : a.id = att
    · simp [h]
    · rw [List.map_cons, if_neg (by simpa using h),
        List.find?_cons_of_neg (p := fun a0 : Attr => a0.id == att) _ (by simpa using h),
        List.find?_cons_of_neg (p := fun a0 : Attr => a0.id == att) _ (by simpa using h), ih]

/-- Rewriting exactly the addressed cluster via `applyWrite` commutes with
looking that cluster up. -/
theorem find?_clusters_applyWrite (cl att : Nat) (v : WVal) :
    ∀ l : List Cluster,
      (l.map fun c => if c.id == cl then applyWrite c att v else c).find?
          (fun c => c.id == cl) =
        (l.find? (fun c => c.id == cl)).map fun c => applyWrite c att v := by
  intro l
  induction l with
  | nil => rfl
  | cons c t ih =>
    by_cases h : c.id = cl
    · simp [h, applyWrite]
    · rw [List.map_cons, if_neg (by simpa using h),
        List.find?_cons_of_neg (p := fun c0 : Cluster => c0.id == cl) _ (by simpa using h),
        List.find?_cons_of_neg (p := fun c0 : Cluster => c0.id == cl) _ (by simpa using h), ih]

/-- Rewriting exactly the addressed endpoint's clusters commutes with
looking that endpoint up. -/
theorem find?_endpoints_applyWrite (ep cl att : Nat) (v : WVal) :
    ∀ t : List Endpoint,
      (t.map fun e =>
          if e.id == ep then
            { e with clusters :=
                e.clusters.map fun c => if c.id == cl then applyWrite c att v else c }
          else e).find? (fun e => e.id == ep) =
        (t.find? (fun e => e.id == ep)).map fun e =>
          { e with clusters :=
              e.clusters.map fun c => if c.id == cl then applyWrite c att v else c } := by
  intro t
  induction t with
  | nil => rfl
  | cons e t ih =>
    by_cases h : e.id = ep
    · simp [h]
    · rw [List.map_cons, if_neg (by simpa using h),
        List.find?_cons_of_neg (p := fun e0 : Endpoint => e0.id == ep) _ (by simpa using h),
        List.find?_cons_of_neg (p := fun e0 : Endpoint => e0.id == ep) _ (by simpa using h), ih]

/-- The tree after `updateCluster ... (applyWrite ...)` holds the rewritten
cluster at the addressed path. -/
theorem findCluster_update_applyWrite (t : Tree) (ep cl att : Nat) (v : WVal) :
    findCluster (updateCluster t ep cl fun c => applyWrite c att v) ep cl =
      (findCluster t ep cl).map fun c => applyWrite c att v := by
  unfold findCluster findEndpoint updateCluster
  rw [find?_endpoints_applyWrite ep cl att v t]
  cases hE : t.find? (fun e => e.id == ep) with
  | none => rfl
  | some e =>
    simp only [Option.map_some', Option.bind]
    exact find?_clusters_applyWrite cl att v e.clusters

end IM

namespace IM

/-- C2: data-version handling of Write. (i) A concrete write carrying a data
version different from the cluster's current one answers
`DataVersionMismatch` and leaves the whole dispatcher state (tree and ACL)
unchanged; (ii) a concrete write carrying the matching version is applied:
one `Success` status, ACL untouched, the cluster replaced by `applyWrite`,
whose data version is the old one plus 1 and whose addressed attribute now
holds the written value; (iii) a wildcard write over the two-endpoint test
tree whose supplied version matches only endpoint 0's echo cluster writes
exactly endpoint 0 (value set, version bumped, endpoint 1 untouched) with a
single `Success` status for endpoint 0 only. -/
theorem write_data_version_semantics :
    (∀ (st : ImState) (acc : Accessor) (ep cl att dv : Nat) (v : WVal)
        (e : Endpoint) (c : Cluster) (a : Attr),
      findEndpoint st.tree ep = some e →
      e.clusters.find? (fun c0 => c0.id == cl) = some c →
      c.attrs.find? (fun a0 => a0.id == att) = some a →
      allow st.acl acc ep cl a.writePriv = true →
      dv ≠ c.dataVer →
      writeOne st acc ⟨some dv, GPath.concrete ep cl att, v⟩ =
        (st, [⟨GPath.concrete ep cl att, .dataVersionMismatch⟩])) ∧
    (∀ (st : ImState) (acc : Accessor) (ep cl att n : Nat)
        (e : Endpoint) (c : Cluster) (a : Attr),
      findEndpoint st.tree ep = some e →
      e.clusters.find? (fun c0 => c0.id == cl) = some c →
      c.attrs.find? (fun a0 => a0.id == att) = some a →
      allow st.acl acc ep cl a.writePriv = true →
      ¬(cl = aclClusterID ∧ att = aclAttrID) →
      (writeOne st acc ⟨some c.dataVer, GPath.concrete ep cl att, .num n⟩).2 =
        [⟨GPath.concrete ep cl att, .success⟩] ∧
      (writeOne st acc ⟨some c.dataVer, GPath.concrete ep cl att, .num n⟩).1.acl =
        st.acl ∧
      findCluster
          (writeOne st acc ⟨some c.dataVer, GPath.concrete ep cl att, .num n⟩).1.tree
          ep cl = some (applyWrite c att (.num n)) ∧
      (applyWrite c att (.num n)).dataVer = c.dataVer + 1 ∧
      (applyWrite c att (.num n)).attrs.find? (fun a0 => a0.id == att) =
        some { a with value := n }) ∧
    (∀ (d0 d1 w0 w1 da n : Nat), d0 ≠ d1 →
      writeOne ⟨testTree d0 w0 d1 w1 da, [adminAclAny]⟩ testAcc
          ⟨some d0, ⟨none, some echoClusterID, some attWriteID⟩, .num n⟩ =
        (⟨testTree (d0 + 1) n d1 w1 da, [adminAclAny]⟩,
         [⟨GPath.concrete 0 echoClusterID attWriteID, .success⟩])) := by
  refine ⟨?_, ?_, ?_⟩
  · intro st acc ep cl att dv v e c a hE hC hA hAllow hNe
    have hbeq : (dv == c.dataVer) = false := by simpa using hNe
    simp only [writeOne, GPath.concrete, writeConcrete, hE, hC, hA, hAllow,
      Bool.not_true, Bool.false_eq_true, if_false, hbeq]
  · intro st acc ep cl att n e c a hE hC hA hAllow hNotAcl
    have hb : (cl == aclClusterID && att == aclAttrID) = false := by
      by_cases h1 : cl = aclClusterID
      · have h2 : ¬att = aclAttrID := fun ha => hNotAcl ⟨h1, ha⟩
        simp [h2]
      · simp [h1]
    have hred : writeOne st acc ⟨some c.dataVer, GPath.concrete ep cl att, .num n⟩ =
        (applyWriteState st ep cl att (.num n),
         [⟨GPath.concrete ep cl att, .success⟩]) := by
      simp only [writeOne, GPath.concrete, writeConcrete, hE, hC, hA, hAllow,
        Bool.not_true, Bool.false_eq_true, if_false, beq_self_eq_true, if_true]
    rw [hred]
    have hfc : findCluster st.tree ep cl = some c := by
      unfold findCluster
      rw [hE]
      simpa using hC
    refine ⟨rfl, by simp [applyWriteState, hb], ?_, rfl, ?_⟩
    · show findCluster (updateCluster st.tree ep cl fun c0 => applyWrite c0 att (.num n))
          ep cl = some (applyWrite c att (.num n))
      rw [findCluster_update_applyWrite st.tree ep cl att (.num n), hfc]
      rfl
    · show ((c.attrs.map fun a0 =>
            if a0.id == att then { a0 with value := n } else a0).find?
          (fun a0 => a0.id == att)) = some { a with value := n }
      rw [find?_attrs_set_value att n c.attrs, hA]
      rfl
  · intro d0 d1 w0 w1 da n hNe
    have hbeq : (d0 == d1) = false := by simpa using hNe
    simp only [writeOne, writeWildcard, expandAttrPath, testTree, echoCluster,
      aclCluster, findCluster, findEndpoint, applyWriteState, applyWrite,
      updateCluster, allow, subjectMatches, targetMatches, adminAclAny, testAcc,
      aclClusterID, aclAttrID, echoClusterID, att1ID, attWriteID, GPath.concrete,
      Privilege.level]
    simp [hbeq, hNe, List.filterMap_cons, List.flatMap_cons, Privilege.level]

end IM

namespace IM

/-- Witness for C2 on the two-endpoint test tree (endpoint 0's echo cluster
at data version 5, endpoint 1's at 9): a stale version (4) mismatches, the
current version (5) writes and bumps, and a wildcard write at version 5
writes endpoint 0 only. -/
theorem write_data_version_semantics_witness :
    writeOne ⟨testTree 5 1 9 2 0, [adminAclAny]⟩ testAcc
        ⟨some 4, GPath.concrete 0 echoClusterID attWriteID, .num 42⟩ =
      (⟨testTree 5 1 9 2 0, [adminAclAny]⟩,
       [⟨GPath.concrete 0 echoClusterID attWriteID, .dataVersionMismatch⟩]) ∧
    (writeOne ⟨testTree 5 1 9 2 0, [adminAclAny]⟩ testAcc
        ⟨some 5, GPath.concrete 0 echoClusterID attWriteID, .num 42⟩).2 =
      [⟨GPath.concrete 0 echoClusterID attWriteID, .success⟩] ∧
    writeOne ⟨testTree 5 1 9 2 0, [adminAclAny]⟩ testAcc
        ⟨some 5, ⟨none, some echoClusterID, some attWriteID⟩, .num 42⟩ =
      (⟨testTree 6 42 9 2 0, [adminAclAny]⟩,
       [⟨GPath.concrete 0 echoClusterID attWriteID, .success⟩]) :=
  ⟨write_data_version_semantics.1 ⟨testTree 5 1 9 2 0, [adminAclAny]⟩ testAcc
      0 echoClusterID attWriteID 4 (.num 42) ⟨0, [aclCluster 0, echoCluster 5 1]⟩
      (echoCluster 5 1) ⟨attWriteID, 1, .view, .manage⟩
      (by decide) (by decide) (by decide) (by decide) (by decide),
   (write_data_version_semantics.2.1 ⟨testTree 5 1 9 2 0, [adminAclAny]⟩ testAcc
      0 echoClusterID attWriteID 42 ⟨0, [aclCluster 0, echoCluster 5 1]⟩
      (echoCluster 5 1) ⟨attWriteID, 1, .view, .manage⟩
      (by decide) (by decide) (by decide) (by decide) (by decide)).1,
   write_data_version_semantics.2.2 5 9 1 2 0 42 (by decide)⟩

end IM

namespace IM

/-- C3 (amended): Read semantics. (i) A concrete path whose attribute exists
but whose read the ACL denies answers `AttrStatus(path, UnsupportedAccess)`;
for a path with a wildcard field: (ii) the response never contains a status
(denied or filtered resolutions are silently dropped); (iii) an ACL-denied
concrete resolution contributes no `AttrData` at its path; (iv) an allowed
resolution that no provided `DataVersionFilter` matches contributes
`AttrData(path, value, data_ver)`. -/
theorem read_acl_and_filter_semantics :
    (∀ (st : ImState) (acc : Accessor) (fs : List DVFilter) (ep cl att : Nat)
        (e : Endpoint) (c : Cluster) (a : Attr),
      findEndpoint st.tree ep = some e →
      e.clusters.find? (fun c0 => c0.id == cl) = some c →
      c.attrs.find? (fun a0 => a0.id == att) = some a →
      allow st.acl acc ep cl a.readPriv = false →
      readOne st acc fs (GPath.concrete ep cl att) =
        [.status (GPath.concrete ep cl att) .unsupportedAccess]) ∧
    (∀ (st : ImState) (acc : Accessor) (fs : List DVFilter) (pe pc pl : Option Nat),
      (pe.isSome && pc.isSome && pl.isSome) = false →
      ∀ r ∈ readOne st acc fs ⟨pe, pc, pl⟩, ∃ q v d, r = .data q v d) ∧
    (∀ (st : ImState) (acc : Accessor) (fs : List DVFilter) (pe pc pl : Option Nat)
        (ep cl att : Nat) (c : Cluster) (a : Attr),
      (pe.isSome && pc.isSome && pl.isSome) = false →
      findCluster st.tree ep cl = some c →
      c.attrs.find? (fun a0 => a0.id == att) = some a →
      allow st.acl acc ep cl a.readPriv = false →
      ∀ v d, AttrResp.data (GPath.concrete ep cl att) v d ∉
        readOne st acc fs ⟨pe, pc, pl⟩) ∧
    (∀ (st : ImState) (acc : Accessor) (fs : List DVFilter) (pe pc pl : Option Nat)
        (ep cl att : Nat) (c : Cluster) (a : Attr),
      (pe.isSome && pc.isSome && pl.isSome) = false →
      (ep, cl, att) ∈ expandAttrPath st.tree ⟨pe, pc, pl⟩ →
      findCluster st.tree ep cl = some c →
      c.attrs.find? (fun a0 => a0.id == att) = some a →
      allow st.acl acc ep cl a.readPriv = true →
      filterMatches fs ep cl c.dataVer = false →
      AttrResp.data (GPath.concrete ep cl att) a.value c.dataVer ∈
        readOne st acc fs ⟨pe, pc, pl⟩) := by
  refine ⟨?_, ?_, ?_, ?_⟩
  · intro st acc fs ep cl att e c a hE hC hA hDeny
    simp only [readOne, GPath.concrete, hE, hC, hA, hDeny, Bool.not_false, if_true]
  · intro st acc fs pe pc pl h r hr
    rcases pe with _ | x <;> rcases pc with _ | y <;> rcases pl with _ | z
    on_goal 8 => exact absurd h (by simp)
    all_goals
      obtain ⟨trip, -, hf⟩ := List.mem_filterMap.mp hr
      obtain ⟨ep, cl, att⟩ := trip
      dsimp only at hf
      rcases hfc : findCluster st.tree ep cl with _ | c
      · rw [hfc] at hf; cases hf
      · rw [hfc] at hf
        dsimp only at hf
        rcases hfa : c.attrs.find? (fun a0 => a0.id == att) with _ | a
        · rw [hfa] at hf; cases hf
        · rw [hfa] at hf
          dsimp only at hf
          by_cases hal : allow st.acl acc ep cl a.readPriv = true
          · by_cases hfm : filterMatches fs ep cl c.dataVer = true
            · simp [hal, hfm] at hf
            · simp only [hal, Bool.not_true, Bool.false_eq_true, if_false,
                eq_false_of_ne_true hfm] at hf
              exact ⟨_, _, _, (Option.some.inj hf).symm⟩
          · simp [eq_false_of_ne_true hal] at hf
  · intro st acc fs pe pc pl ep cl att c a h hfc hfa hDeny v d hMem
    rcases pe with _ | x <;> rcases pc with _ | y <;> rcases pl with _ | z
    on_goal 8 => exact absurd h (by simp)
    all_goals
      obtain ⟨trip, -, hf⟩ := List.mem_filterMap.mp hMem
      obtain ⟨ep', cl', att'⟩ := trip
      dsimp only at hf
      rcases hfc' : findCluster st.tree ep' cl' with _ | c'
      · rw [hfc'] at hf; cases hf
      · rw [hfc'] at hf
        dsimp only at hf
        rcases hfa' : c'.attrs.find? (fun a0 => a0.id == att') with _ | a'
        · rw [hfa'] at hf; cases hf
        · rw [hfa'] at hf
          dsimp only at hf
          by_cases hal' : allow st.acl acc ep' cl' a'.readPriv = true
          · by_cases hfm' : filterMatches fs ep' cl' c'.dataVer = true
            · simp [hal', hfm'] at hf
            · simp only [hal', Bool.not_true, Bool.false_eq_true, if_false,
                eq_false_of_ne_true hfm'] at hf
              have hpath := Option.some.inj hf
              simp only [AttrResp.data.injEq, GPath.concrete, GPath.mk.injEq,
                Option.some.injEq] at hpath
              obtain ⟨⟨rfl, rfl, rfl⟩, -, -⟩ := hpath
              rw [hfc] at hfc'
              cases hfc'
              rw [hfa] at hfa'
              cases hfa'
              rw [hDeny] at hal'
              cases hal'
          · simp [eq_false_of_ne_true hal'] at hf
  · intro st acc fs pe pc pl ep cl att c a h hExp hfc hfa hAllow hFm
    rcases pe with _ | x <;> rcases pc with _ | y <;> rcases pl with _ | z
    on_goal 8 => exact absurd h (by simp)
    all_goals
      refine List.mem_filterMap.mpr ⟨(ep, cl, att), hExp, ?_⟩
      dsimp only
      rw [hfc]
      dsimp only
      rw [hfa]
      dsimp only
      simp [hAllow, hFm]

end IM

namespace IM

/-- Witness for C3's amended theorem: with no ACL the exact read of
endpoint 0's `Att1` yields `UnsupportedAccess`; under a universal-admin ACL
with a filter matching endpoint 0 (version 7), the wildcard read still
reports endpoint 1's unfiltered attribute. -/
theorem read_acl_and_filter_semantics_witness :
    readOne ⟨testTree 7 1 8 2 0, []⟩ testAcc [] (GPath.concrete 0 echoClusterID att1ID) =
      [.status (GPath.concrete 0 echoClusterID att1ID) .unsupportedAccess] ∧
    AttrResp.data (GPath.concrete 1 echoClusterID att1ID) 0x1234 8 ∈
      readOne ⟨testTree 7 1 8 2 0, [adminAclAny]⟩ testAcc [⟨0, echoClusterID, 7⟩]
        ⟨none, some echoClusterID, some att1ID⟩ :=
  ⟨read_acl_and_filter_semantics.1 ⟨testTree 7 1 8 2 0, []⟩ testAcc []
      0 echoClusterID att1ID ⟨0, [aclCluster 0, echoCluster 7 1]⟩ (echoCluster 7 1)
      ⟨att1ID, 0x1234, .view, .admin⟩ (by decide) (by decide) (by decide) (by decide),
   read_acl_and_filter_semantics.2.2.2 ⟨testTree 7 1 8 2 0, [adminAclAny]⟩ testAcc
      [⟨0, echoClusterID, 7⟩] none (some echoClusterID) (some att1ID)
      1 echoClusterID att1ID (echoCluster 8 2) ⟨att1ID, 0x1234, .view, .admin⟩
      (by decide) (by decide) (by decide) (by decide) (by decide) (by decide)⟩

end IM

namespace IM

/-- C4: Invoke dispatch. On a concrete path, a missing endpoint, cluster or
command answers `CmdStatus` with `UnsupportedEndpoint`, `UnsupportedCluster`
or `UnsupportedCommand` respectively; with a wildcard endpoint, when no
endpoint hosts the named cluster together with the named command, nothing at
all is emitted; and the five-request scenario of
`test_invoke_cmds_unsupported_fields` (two of them wildcard-endpoint cases)
produces exactly the three concrete-path statuses. -/
theorem invoke_unsupported_and_wildcard_drop :
    (∀ (st : ImState) (acc : Accessor) (ep cl cmd data : Nat),
      findEndpoint st.tree ep = none →
      invokeOne st acc ⟨GPath.concrete ep cl cmd, data⟩ =
        [.status (GPath.concrete ep cl cmd) .unsupportedEndpoint]) ∧
    (∀ (st : ImState) (acc : Accessor) (ep cl cmd data : Nat) (e : Endpoint),
      findEndpoint st.tree ep = some e →
      e.clusters.find? (fun c0 => c0.id == cl) = none →
      invokeOne st acc ⟨GPath.concrete ep cl cmd, data⟩ =
        [.status (GPath.concrete ep cl cmd) .unsupportedCluster]) ∧
    (∀ (st : ImState) (acc : Accessor) (ep cl cmd data : Nat) (e : Endpoint)
        (c : Cluster),
      findEndpoint st.tree ep = some e →
      e.clusters.find? (fun c0 => c0.id == cl) = some c →
      c.cmds.contains cmd = false →
      invokeOne st acc ⟨GPath.concrete ep cl cmd, data⟩ =
        [.status (GPath.concrete ep cl cmd) .unsupportedCommand]) ∧
    (∀ (st : ImState) (acc : Accessor) (cl cmd data : Nat),
      (∀ e ∈ st.tree, ∀ c, e.clusters.find? (fun c0 => c0.id == cl) = some c →
        c.cmds.contains cmd = false) →
      invokeOne st acc ⟨⟨none, some cl, some cmd⟩, data⟩ = []) ∧
    (invokeReqs ⟨testTree 0 1 0 2 0, [adminAclAll]⟩ testAcc
        [⟨GPath.concrete 2 echoClusterID echoReqID, 5⟩,
         ⟨GPath.concrete 0 0x1234 echoReqID, 5⟩,
         ⟨⟨none, some 0x1234, some echoReqID⟩, 5⟩,
         ⟨GPath.concrete 0 echoClusterID 0x1234, 5⟩,
         ⟨⟨none, some echoClusterID, some 0x1234⟩, 5⟩] =
      [.status (GPath.concrete 2 echoClusterID echoReqID) .unsupportedEndpoint,
       .status (GPath.concrete 0 0x1234 echoReqID) .unsupportedCluster,
       .status (GPath.concrete 0 echoClusterID 0x1234) .unsupportedCommand]) := by
  refine ⟨?_, ?_, ?_, ?_, by decide⟩
  · intro st acc ep cl cmd data hE
    simp only [invokeOne, GPath.concrete, invokeConcrete, hE]
  · intro st acc ep cl cmd data e hE hC
    simp only [invokeOne, GPath.concrete, invokeConcrete, hE, hC]
  · intro st acc ep cl cmd data e c hE hC hCmd
    simp only [invokeOne, GPath.concrete, invokeConcrete, hE, hC, hCmd,
      Bool.not_false, if_true]
  · intro st acc cl cmd data h
    show invokeWildcard st acc cl cmd data = []
    rw [invokeWildcard, List.flatMap_eq_nil_iff]
    intro e he
    cases hC : e.clusters.find? (fun c0 => c0.id == cl) with
    | none => rfl
    | some c =>
      have hcc := h e he c hC
      dsimp only
      rw [hcc]
      rfl

end IM

namespace IM

/-- Witness for C4 on the two-endpoint test tree: endpoint 2 does not exist,
and no endpoint supports command 0x1234 of the echo cluster under a wildcard
endpoint. -/
theorem invoke_unsupported_and_wildcard_drop_witness :
    invokeOne ⟨testTree 0 1 0 2 0, [adminAclAll]⟩ testAcc
        ⟨GPath.concrete 2 echoClusterID echoReqID, 5⟩ =
      [.status (GPath.concrete 2 echoClusterID echoReqID) .unsupportedEndpoint] ∧
    invokeOne ⟨testTree 0 1 0 2 0, [adminAclAll]⟩ testAcc
        ⟨⟨none, some echoClusterID, some 0x1234⟩, 5⟩ = [] :=
  ⟨invoke_unsupported_and_wildcard_drop.1 ⟨testTree 0 1 0 2 0, [adminAclAll]⟩ testAcc
      2 echoClusterID echoReqID 5 (by decide),
   invoke_unsupported_and_wildcard_drop.2.2.2.1 ⟨testTree 0 1 0 2 0, [adminAclAll]⟩
      testAcc echoClusterID 0x1234 5 (by decide)⟩

end IM
